import Mathlib

/-!
Verification development for the dyon scripting-language runtime core
(`src/dyon_std/mod.rs`, `src/intrinsics/data.rs`).

The runtime's tagged `Variable` union, its operand stack, and the
`dyon_std` intrinsic operations named by the claims are embedded as
executable Lean definitions.  Rust's `f64` payload is abstracted to an
integer-or-NaN value: no claim under verification depends on float
arithmetic, only on NaN-ness and on small integral indices/counts.
A Rust `panic!` / index-out-of-bounds abort is modelled by the `panic`
outcome, distinct from the `Result::Err` channel that script-level
failures use.
-/

namespace Dyon

/-- Abstraction of the `f64` numeric payload: either NaN or a finite
integral value (the claims use numbers only as indices, arities and
NaN-ness tests, never as general floats). -/
inductive F64Val where
  | nan
  | num (v : Int)
deriving DecidableEq, Repr

/-- `f64::is_nan`. -/
def F64Val.isNaN : F64Val → Bool
  | .nan => true
  | .num _ => false

/-- Rust's `as usize` cast on the abstracted payload: NaN casts to 0,
negative values saturate to 0. -/
def F64Val.toUsize : F64Val → Nat
  | .nan => 0
  | .num v => v.toNat

/-- A loaded function of a module, reduced to the data the dispatcher
inspects: its name and its declared parameter count (`f.args.len()`).
The full AST of the function lives in the excluded compiler front end. -/
structure LoadedFn where
  name : String
  args : Nat
deriving DecidableEq, Repr

/-- An external-prelude entry (`Module::ext_prelude` element): a name, a
foreign-function pointer and a parameter-shape descriptor.  The pointer
and descriptor are opaque to the merge logic, so they are modelled as
numeric tags. -/
structure ExtFn where
  name : String
  f : Nat
  p : Nat
deriving DecidableEq, Repr

/-- A loaded module, reduced to the parts the claims inspect: the
loaded-function table and the external prelude.  Intrinsic tables are
shared host state and play no role in the claims. -/
structure ModuleRep where
  functions : List LoadedFn := []
  extPrelude : List ExtFn := []
deriving DecidableEq, Repr

/-- `FnIndex`: the result of function lookup inside a module. -/
inductive FnIndex where
  | loaded (i : Nat)
  | intrinsic (i : Nat)
  | externalVoid (i : Nat)
  | externalReturn (i : Nat)
  | none
deriving DecidableEq, Repr

/-- Payload of a `RustObject` variable: a type-erased host object that
can be downcast.  The only downcast the claims exercise is to
`Arc<Module>`; every other payload is an opaque tag. -/
inductive RObj where
  | module (m : ModuleRep)
  | other (tag : Nat)
deriving DecidableEq, Repr

mutual
/-- The runtime value union (`Variable` in the source), with every
variant of the Rust enum.  Payload simplifications: `f64`/`f32`
components use `F64Val`; `Link` is its element sequence; `Closure`,
`Thread` and `In` handles are numeric ids; `Ref`/`UnsafeRef` (here
`uncheckedRef`) are stack indices. -/
inductive Variable where
  | f64 (v : F64Val) (sec : Option (List Variable))
  | bool (b : Bool) (sec : Option (List Variable))
  | text (s : String)
  | vec4 (x y z w : F64Val)
  | mat4 (m : List (List F64Val))
  | array (elems : List Variable)
  | object (entries : List (String × Variable))
  | link (elems : List Variable)
  | ref (ind : Nat)
  | uncheckedRef (ind : Nat)
  | rustObject (o : RObj)
  | option (o : Option Variable)
  | result (r : Except DyonError Variable)
  | thread (h : Nat)
  | closure (c : Nat)
  | inChan (h : Nat)
  | ret

/-- The `Error` value carried by a failure `Result`: a message variable
and ordered trace lines. -/
inductive DyonError where
  | mk (message : Variable) (trace : List String)
end

instance : Inhabited Variable := ⟨Variable.ret⟩

/-- The message variable of an `Error`. -/
def DyonError.message : DyonError → Variable
  | .mk m _ => m

/-- The trace lines of an `Error`. -/
def DyonError.trace : DyonError → List String
  | .mk _ t => t

/-- The operand stack (`rt.stack`): index 0 is the bottom; pushes go on
the end, pops take the last element, and `Variable::Ref(ind)` indexes
from the bottom exactly like `rt.stack[ind]`. -/
abbrev Stack := List Variable

/-- Outcome of one intrinsic: `ok`, a script-level failure carrying the
message and the `arg_err_index` cell value, or a process abort
(`panic!`, stack underflow, index out of bounds). -/
inductive ERes where
  | ok
  | err (msg : String) (argIndex : Option Nat)
  | panic (msg : String)
deriving DecidableEq, Repr

/-- The `TINVOTS` panic message used by `.expect(TINVOTS)` on operand
pops (stack underflow is a programming-contract violation, not a
script-level failure). -/
def TINVOTS : String := "There is no value on the stack"

/-- Pop the top operand (`rt.stack.pop()`): `none` models the stack
underflow that `.expect(TINVOTS)` turns into an abort. -/
def popOp (s : Stack) : Option (Variable × Stack) :=
  match s.getLast? with
  | some v => some (v, s.dropLast)
  | none => none

/-- `Runtime::resolve`: a stack reference is replaced by the slot it
indexes (one level); every other variable resolves to itself.  An
out-of-range index would abort in the source; it is left unresolved
here and no claim exercises it. -/
def resolve (s : Stack) (v : Variable) : Variable :=
  match v with
  | .ref i => (s.get? i).getD v
  | x => x

mutual
/-- Modelled from the spec: `Variable::deep_clone` is not part of the
excerpted source (only its call sites are).  Per the spec's dispatch
contract (§4.3) a value is resolved and deep-cloned so that the result
cannot alias the caller's stack: nested shared containers (arrays,
objects, links, provenance chains, option/result payloads) are copied
recursively and stack references are chased through the stack.  `none`
models the aborts of the source on this path (an unchecked reference,
a dangling or cyclic stack reference); the `fuel` bounds reference
chasing and is instantiated generously by `deepClone`. -/
def deepCloneF (s : Stack) : Nat → Variable → Option Variable
  | 0, _ => none
  | fuel + 1, v =>
    match v with
    | .f64 val none => some (.f64 val none)
    | .f64 val (some c) => (deepCloneListF s fuel c).map (fun c => .f64 val (some c))
    | .bool b none => some (.bool b none)
    | .bool b (some c) => (deepCloneListF s fuel c).map (fun c => .bool b (some c))
    | .text t => some (.text t)
    | .vec4 a b c d => some (.vec4 a b c d)
    | .mat4 m => some (.mat4 m)
    | .array es => (deepCloneListF s fuel es).map .array
    | .object entries => (deepCloneObjF s fuel entries).map .object
    | .link es => (deepCloneListF s fuel es).map .link
    | .ref i =>
      match s.get? i with
      | some w => deepCloneF s fuel w
      | none => none
    | .uncheckedRef _ => none
    | .rustObject o => some (.rustObject o)
    | .option none => some (.option none)
    | .option (some v) => (deepCloneF s fuel v).map (fun w => .option (some w))
    | .result (.ok v) => (deepCloneF s fuel v).map (fun w => .result (.ok w))
    | .result (.error (.mk m tr)) =>
      (deepCloneF s fuel m).map (fun w => .result (.error (.mk w tr)))
    | .thread h => some (.thread h)
    | .closure c => some (.closure c)
    | .inChan h => some (.inChan h)
    | .ret => some .ret

/-- Deep clone of a value sequence (array elements, link elements or a
provenance chain). -/
def deepCloneListF (s : Stack) : Nat → List Variable → Option (List Variable)
  | 0, _ => none
  | _ + 1, [] => some []
  | fuel + 1, v :: vs =>
    match deepCloneF s fuel v, deepCloneListF s fuel vs with
    | some w, some ws => some (w :: ws)
    | _, _ => none

/-- Deep clone of an object's key/value entries. -/
def deepCloneObjF (s : Stack) : Nat → List (String × Variable) → Option (List (String × Variable))
  | 0, _ => none
  | _ + 1, [] => some []
  | fuel + 1, (k, v) :: vs =>
    match deepCloneF s fuel v, deepCloneObjF s fuel vs with
    | some w, some ws => some ((k, w) :: ws)
    | _, _ => none
end

mutual
/-- Structural size of a value, used only to pick a sufficient fuel for
`deepClone`. -/
def varSize : Variable → Nat
  | .f64 _ none => 1
  | .f64 _ (some c) => varSizeList c + 1
  | .bool _ none => 1
  | .bool _ (some c) => varSizeList c + 1
  | .text _ => 1
  | .vec4 _ _ _ _ => 1
  | .mat4 _ => 1
  | .array es => varSizeList es + 1
  | .object entries => varSizeObj entries + 1
  | .link es => varSizeList es + 1
  | .ref _ => 1
  | .uncheckedRef _ => 1
  | .rustObject _ => 1
  | .option none => 1
  | .option (some v) => varSize v + 1
  | .result (.ok v) => varSize v + 1
  | .result (.error (.mk m _)) => varSize m + 1
  | .thread _ => 1
  | .closure _ => 1
  | .inChan _ => 1
  | .ret => 1

/-- Structural size of a value sequence. -/
def varSizeList : List Variable → Nat
  | [] => 0
  | v :: vs => varSize v + varSizeList vs + 1

/-- Structural size of object entries. -/
def varSizeObj : List (String × Variable) → Nat
  | [] => 0
  | (_, v) :: vs => varSize v + varSizeObj vs + 1
end

/-- `deep_clone` with a fuel bound that covers every terminating run of
the source's recursion (the structure of the value plus the stack it
chases references through). -/
def deepClone (s : Stack) (v : Variable) : Option Variable :=
  deepCloneF s (varSize v + varSizeList s + 1) v

mutual
/-- A value is reference-free when no `Ref` or unchecked reference
occurs anywhere inside it: such a value cannot alias any stack slot. -/
def refFree : Variable → Bool
  | .f64 _ none => true
  | .f64 _ (some c) => refFreeList c
  | .bool _ none => true
  | .bool _ (some c) => refFreeList c
  | .text _ => true
  | .vec4 _ _ _ _ => true
  | .mat4 _ => true
  | .array es => refFreeList es
  | .object entries => refFreeObj entries
  | .link es => refFreeList es
  | .ref _ => false
  | .uncheckedRef _ => false
  | .rustObject _ => true
  | .option none => true
  | .option (some v) => refFree v
  | .result (.ok v) => refFree v
  | .result (.error (.mk m _)) => refFree m
  | .thread _ => true
  | .closure _ => true
  | .inChan _ => true
  | .ret => true

/-- Reference-freedom of a value sequence. -/
def refFreeList : List Variable → Bool
  | [] => true
  | v :: vs => refFree v && refFreeList vs

/-- Reference-freedom of object entries. -/
def refFreeObj : List (String × Variable) → Bool
  | [] => true
  | (_, v) :: vs => refFree v && refFreeObj vs
end

/-- Modelled from the spec: `Runtime::expected_arg` is not part of the
excerpted source.  Per the spec's error taxonomy a `TypeMismatch`
always reports the expected variant name (and the position, which the
source records through the `arg_err_index` cell, modelled by the
`argIndex` field of `ERes.err`). -/
def expectedArgMsg (expected : String) (found : String) : String :=
  "Expected `" ++ expected ++ "`, found `" ++ found ++ "`"

/-- Modelled from the spec: the per-variant type names used by
diagnostics (`TEXT_TYPE` etc. are defined outside the excerpted
source); only which *argument* a mismatch names is claim-relevant,
never the found-side text. -/
def typeName : Variable → String
  | .f64 _ _ => "f64"
  | .bool _ _ => "bool"
  | .text _ => "str"
  | .vec4 _ _ _ _ => "vec4"
  | .mat4 _ => "mat4"
  | .array _ => "array"
  | .object _ => "object"
  | .link _ => "link"
  | .ref _ => "ref"
  | .uncheckedRef _ => "unsafe_ref"
  | .rustObject _ => "rust_object"
  | .option _ => "opt"
  | .result _ => "res"
  | .thread _ => "thr"
  | .closure _ => "closure"
  | .inChan _ => "in"
  | .ret => "return"

/-- `dyon_std::why` (mod.rs lines 130-154): read the provenance chain
of a boolean.  Requires a `true` boolean with a chain; returns the
chain reversed as an array. -/
def why (s : Stack) : ERes × Stack :=
  match popOp s with
  | none => (.panic TINVOTS, s)
  | some (v, s) =>
    match resolve s v with
    | .bool true (some sec) => (.ok, s ++ [.array sec.reverse])
    | .bool true none =>
      (.err "This does not make sense, perhaps an array is empty?" (some 0), s)
    | .bool false _ =>
      (.err "Must be `true` to have meaning, try add or remove `!`" (some 0), s)
    | x => (.err (expectedArgMsg "bool" (typeName x)) (some 0), s)

/-- `dyon_std::_where` (mod.rs lines 156-181): read the provenance
chain of a number.  A NaN payload is rejected only in the
chain-carrying arm; a chainless number falls through to the
chainless error regardless of NaN-ness. -/
def _where (s : Stack) : ERes × Stack :=
  match popOp s with
  | none => (.panic TINVOTS, s)
  | some (v, s) =>
    match resolve s v with
    | .f64 val (some sec) =>
      if val.isNaN then
        (.err "Expected number, found `NaN`" (some 0), s)
      else
        (.ok, s ++ [.array sec.reverse])
    | .f64 _ none =>
      (.err "This does not make sense, perhaps an array is empty?" (some 0), s)
    | x => (.err (expectedArgMsg "f64" (typeName x)) (some 0), s)

/-- Abort message for a `deep_clone` that the source could not complete
(unchecked reference or dangling/cyclic stack reference). -/
def deepCloneAbortMsg : String := "deep clone aborted"

/-- `dyon_std::explain_why` (mod.rs lines 183-201): attach an
explanation to a boolean's provenance chain.  Accepts the boolean in
either truth value; starts a chain when none is present, otherwise
appends the deep-cloned explanation at the end. -/
def explain_why (s : Stack) : ERes × Stack :=
  match popOp s with
  | none => (.panic TINVOTS, s)
  | some (why, s) =>
    match popOp s with
    | none => (.panic TINVOTS, s)
    | some (val, s) =>
      match resolve s val with
      | .bool b sec =>
        match deepClone s why with
        | none => (.panic deepCloneAbortMsg, s)
        | some w =>
          let sec := match sec with
            | none => [w]
            | some sec => sec ++ [w]
          (.ok, s ++ [.bool b (some sec)])
      | x => (.err (expectedArgMsg "bool" (typeName x)) (some 0), s)

/-- `dyon_std::explain_where` (mod.rs lines 203-221): attach a source
explanation to a number's provenance chain.  The non-number arm
reports the expected variant as `"bool"`, exactly as the source's
`rt.expected_arg(0, x, "bool")` does. -/
def explain_where (s : Stack) : ERes × Stack :=
  match popOp s with
  | none => (.panic TINVOTS, s)
  | some (wh, s) =>
    match popOp s with
    | none => (.panic TINVOTS, s)
    | some (val, s) =>
      match resolve s val with
      | .f64 v sec =>
        match deepClone s wh with
        | none => (.panic deepCloneAbortMsg, s)
        | some w =>
          let sec := match sec with
            | none => [w]
            | some sec => sec ++ [w]
          (.ok, s ++ [.f64 v (some sec)])
      | x => (.err (expectedArgMsg "bool" (typeName x)) (some 0), s)

/-- The panic message of a Rust index expression `rt.stack[ind]` whose
index is out of range (a process abort, not a script failure). -/
def stackIndexPanicMsg : String := "index out of bounds"

/-- Rust's `<[T]>::swap`: exchanges two elements, or reports the panic
message when either index is out of bounds. -/
def vecSwap (l : List Variable) (i j : Nat) : Except String (List Variable) :=
  if hi : i < l.length then
    if hj : j < l.length then
      .ok ((l.set i (l.get ⟨j, hj⟩)).set j (l.get ⟨i, hi⟩))
    else
      .error ("index out of bounds: the len is " ++ toString l.length ++
        " but the index is " ++ toString j)
  else
    .error ("index out of bounds: the len is " ++ toString l.length ++
      " but the index is " ++ toString i)

/-- `dyon_std::swap` (mod.rs lines 578-610): swap two elements of an
array behind a reference.  The indices are not bounds-checked by the
source before `<[T]>::swap` runs, so an out-of-range index aborts. -/
def swap (s : Stack) : ERes × Stack :=
  match popOp s with
  | none => (.panic TINVOTS, s)
  | some (j, s) =>
    match popOp s with
    | none => (.panic TINVOTS, s)
    | some (i, s) =>
      match resolve s j with
      | .f64 jval _ =>
        match resolve s i with
        | .f64 ival _ =>
          match popOp s with
          | none => (.panic TINVOTS, s)
          | some (v, s) =>
            match v with
            | .ref ind =>
              match s.get? ind with
              | some (.array arr) =>
                match vecSwap arr ival.toUsize jval.toUsize with
                | .ok arr => (.ok, s.set ind (.array arr))
                | .error msg => (.panic msg, s)
              | some _ => (.err "Expected reference to array" (some 0), s)
              | none => (.panic stackIndexPanicMsg, s)
            | _ => (.err "Expected reference to array" (some 0), s)
        | x => (.err (expectedArgMsg "number" (typeName x)) (some 1), s)
      | x => (.err (expectedArgMsg "number" (typeName x)) (some 2), s)

/-- `dyon_std::pop` (mod.rs lines 466-497): remove and return the last
element of an array behind a reference; an empty array is a reportable
error and the referenced slot keeps its (empty) contents. -/
def pop (s : Stack) : ERes × Stack :=
  match popOp s with
  | none => (.panic TINVOTS, s)
  | some (arr, s) =>
    match arr with
    | .ref ind =>
      match s.get? ind with
      | some (.array a) =>
        let s := s.set ind (.array a.dropLast)
        match a.getLast? with
        | none => (.err "Expected non-empty array" (some 0), s)
        | some x => (.ok, s ++ [x])
      | some _ => (.err "Expected reference to array" (some 0), s)
      | none => (.panic stackIndexPanicMsg, s)
    | _ => (.err "Expected reference to array" (some 0), s)

/-- Deep-clone every element of a list with the same stack (the chain
of per-argument clones of a dispatch); `none` as soon as one clone
aborts. -/
def cloneList (s : Stack) : List Variable → Option (List Variable)
  | [] => some []
  | a :: as =>
    match deepClone s a, cloneList s as with
    | some w, some ws => some (w :: ws)
    | _, _ => none

/-- Resolve and deep-clone every element of an argument array, in
order: the values a dispatched callee receives. -/
def cloneArgs (s : Stack) : List Variable → Option (List Variable)
  | [] => some []
  | a :: as =>
    match deepClone s (resolve s a), cloneArgs s as with
    | some w, some ws => some (w :: ws)
    | _, _ => none

/-- Modelled from the spec: `Module::find_function` is not part of the
excerpted source.  Function lookup resolves a name to a loaded user
function of the module's table, or reports that no function was
found; intrinsic and external-prelude lookup are irrelevant to the
dispatch claims (the dispatcher rejects those outcomes identically to
`FnIndex::None`). -/
def ModuleRep.findFunction (m : ModuleRep) (name : String) : FnIndex :=
  match m.functions.findIdx? (fun f => f.name = name) with
  | some i => .loaded i
  | none => .none

/-- Observable effects of a dispatch: running the lifetime check and
executing the callee with the argument values it receives. -/
inductive DispatchEvent where
  | lifetimeCheck (fnName : String)
  | execute (fnName : String) (args : List Variable)

/-- The arity-mismatch diagnostic of `_call` / `call_ret`. -/
def arityMsg (expected found : Nat) : String :=
  "Expected `" ++ toString expected ++ "` arguments, found `" ++ toString found ++ "`"

/-- The `NotFound` diagnostic of `_call` / `call_ret`. -/
def notFoundMsg (name : String) : String :=
  "Could not find function `" ++ name ++ "`"

/-- A lifetime checker: the contract of `lifetimechk::check` (declared
in the source but defined outside the excerpt), kept abstract — the
dispatch theorems hold for every checker. -/
abbrev LifetimeChk := LoadedFn → List Variable → Except String Unit

/-- A callee semantics: the contract of `Runtime::call` (defined
outside the excerpt), kept abstract — it receives the module, the
function name and the argument values, and yields an optional return
value or a diagnostic. -/
abbrev ExecFn := ModuleRep → String → List Variable → Except String (Option Variable)

/-- Shared dispatch core of `_call` (mod.rs lines 917-983) and
`call_ret` (lines 985-1054), applied after the three operands have
been popped and resolved.  The parts outside the excerpt are modelled
from the spec: lookup by name (`ModuleRep.findFunction`), an abstract
lifetime checker, and `Runtime::call`, which resolves and deep-clones
each argument before the callee executes and is otherwise abstract
(`exec`).  The returned event list records, in order, the observable
effects that happened. -/
def dispatchCore (ltc : LifetimeChk) (exec : ExecFn) (s : Stack) (m : ModuleRep)
    (name : String) (argElems : List Variable) :
    (Except (String × Option Nat) (Option Variable)) × List DispatchEvent :=
  match m.findFunction name with
  | .loaded fi =>
    match m.functions.get? fi with
    | none => (.error (stackIndexPanicMsg, none), [])
    | some f =>
      if f.args ≠ argElems.length then
        (.error (arityMsg f.args argElems.length, some 2), [])
      else
        match ltc f argElems with
        | .error e => (.error (e, some 2), [.lifetimeCheck name])
        | .ok _ =>
          match cloneArgs s argElems with
          | none => (.error (deepCloneAbortMsg, none), [.lifetimeCheck name])
          | some passed =>
            match exec m name passed with
            | .error e => (.error (e, none), [.lifetimeCheck name, .execute name passed])
            | .ok r => (.ok r, [.lifetimeCheck name, .execute name passed])
  | .intrinsic _ => (.error (notFoundMsg name, none), [])
  | .externalVoid _ => (.error (notFoundMsg name, none), [])
  | .externalReturn _ => (.error (notFoundMsg name, none), [])
  | .none => (.error (notFoundMsg name, none), [])

/-- `dyon_std::_call` (mod.rs lines 917-983): cross-module dispatch
discarding the callee's return value.  Pops the argument array, the
function name and the module handle; resolves the name, then the
arguments, then the module, in the source's order. -/
def _call (ltc : LifetimeChk) (exec : ExecFn) (s : Stack) : (ERes × Stack) × List DispatchEvent :=
  match popOp s with
  | none => ((.panic TINVOTS, s), [])
  | some (args, s) =>
    match popOp s with
    | none => ((.panic TINVOTS, s), [])
    | some (fnName, s) =>
      match popOp s with
      | none => ((.panic TINVOTS, s), [])
      | some (callModule, s) =>
        match resolve s fnName with
        | .text name =>
          match resolve s args with
          | .array argElems =>
            match resolve s callModule with
            | .rustObject (.module m) =>
              match dispatchCore ltc exec s m name argElems with
              | (.ok _, evs) => ((.ok, s), evs)
              | (.error (msg, idx), evs) => ((.err msg idx, s), evs)
            | .rustObject (.other _) =>
              ((.err (expectedArgMsg "Module" "rust_object") (some 0), s), [])
            | x => ((.err (expectedArgMsg "Module" (typeName x)) (some 0), s), [])
          | x => ((.err (expectedArgMsg "array" (typeName x)) (some 2), s), [])
        | x => ((.err (expectedArgMsg "text" (typeName x)) (some 1), s), [])

/-- `dyon_std::call_ret` (mod.rs lines 985-1054): cross-module dispatch
requiring exactly one produced value, which is pushed.  Identical to
`_call` except that the arguments resolve before the name and a
missing return value is a reportable error. -/
def call_ret (ltc : LifetimeChk) (exec : ExecFn) (s : Stack) :
    (ERes × Stack) × List DispatchEvent :=
  match popOp s with
  | none => ((.panic TINVOTS, s), [])
  | some (args, s) =>
    match popOp s with
    | none => ((.panic TINVOTS, s), [])
    | some (fnName, s) =>
      match popOp s with
      | none => ((.panic TINVOTS, s), [])
      | some (callModule, s) =>
        match resolve s args with
        | .array argElems =>
          match resolve s fnName with
          | .text name =>
            match resolve s callModule with
            | .rustObject (.module m) =>
              match dispatchCore ltc exec s m name argElems with
              | (.ok (some v), evs) => ((.ok, s ++ [v]), evs)
              | (.ok none, evs) =>
                ((.err ("Expected some return value `" ++ name ++ "`") none, s), evs)
              | (.error (msg, idx), evs) => ((.err msg idx, s), evs)
            | .rustObject (.other _) =>
              ((.err (expectedArgMsg "Module" "rust_object") (some 0), s), [])
            | x => ((.err (expectedArgMsg "Module" (typeName x)) (some 0), s), [])
          | x => ((.err (expectedArgMsg "text" (typeName x)) (some 1), s), [])
        | x => ((.err (expectedArgMsg "array" (typeName x)) (some 2), s), [])

/-- Modelled from the spec: `Module::add` (defined outside the
excerpt) registers one external-prelude entry by appending it. -/
def ModuleRep.add (m : ModuleRep) (f : ExtFn) : ModuleRep :=
  { m with extPrelude := m.extPrelude ++ [f] }

/-- Modelled from the spec: `Module::register` (defined outside the
excerpt) appends one already-loaded function to the function table. -/
def ModuleRep.register (m : ModuleRep) (f : LoadedFn) : ModuleRep :=
  { m with functions := m.functions ++ [f] }

/-- The per-import merge loop shared verbatim by `load__source_imports`
(mod.rs lines 797-854) and `module__in_string_imports` (lines
856-915): each of the import's external-prelude entries is added only
when no entry of that name is already present, then the import's
loaded functions are registered. -/
def addImport (newModule : ModuleRep) (imp : ModuleRep) : ModuleRep :=
  let newModule := imp.extPrelude.foldl
    (fun acc f =>
      if acc.extPrelude.any (fun a => a.name = f.name) then acc else acc.add f)
    newModule
  imp.functions.foldl (fun acc f => acc.register f) newModule

/-- The module-construction phase of `load__source_imports` /
`module__in_string_imports`, up to the hand-off to the external
compiler (`load` / `load_str`): a fresh module seeded with the host's
intrinsics receives the base (host) external prelude entry by entry,
then each import in listed order through `addImport`. -/
def load__source_imports (basePrelude : List ExtFn) (imports : List ModuleRep) : ModuleRep :=
  let newModule := basePrelude.foldl (fun acc f => acc.add f) {}
  imports.foldl addImport newModule

/-- First external-prelude entry of a given name (the entry dispatch
resolves to). -/
def findExt (l : List ExtFn) (n : String) : Option ExtFn :=
  l.find? (fun a => a.name = n)

/-- List-level view of the guarded merge loop of `addImport`: fold the
candidate entries over an existing prelude, appending each entry only
when its name is not yet present. -/
def mergeExt (L : List ExtFn) (fs : List ExtFn) : List ExtFn :=
  fs.foldl (fun L f => if L.any (fun a => a.name = f.name) then L else L ++ [f]) L

/-- How a background task ended, as observed by the join that consumed
its handle: a produced value, the task's own error message, or an
abnormal termination not passing through the task's own error path. -/
inductive TaskEnd where
  | value (v : Variable)
  | failed (msg : String)
  | abnormal

/-- The background-task handle table: each spawned handle id maps to
`some` pending outcome until joined, then to `none` (invalidated). -/
abbrev ThreadTab := List (Nat × Option TaskEnd)

/-- Pending outcome of a handle id, when the id exists. -/
def tabGet (ts : ThreadTab) (h : Nat) : Option (Option TaskEnd) :=
  (ts.find? (fun p => p.1 = h)).map (fun p => p.2)

/-- Overwrite the pending outcome of a handle id. -/
def tabSet (ts : ThreadTab) (h : Nat) (v : Option TaskEnd) : ThreadTab :=
  ts.map (fun p => if p.1 = h then (p.1, v) else p)

/-- The message of the spec's `AlreadyJoined` error. -/
def alreadyJoinedMsg : String := "AlreadyJoined"

/-- Modelled from the spec: `Thread::invalidate_handle` is not part of
the excerpted source.  Joining consumes the handle: the first use
yields the pending outcome and invalidates the entry; a handle already
invalidated (or never spawned) fails with `AlreadyJoined`; a
non-handle variable is a type mismatch. -/
def invalidateHandle (ts : ThreadTab) (v : Variable) :
    Except String (TaskEnd × ThreadTab) :=
  match v with
  | .thread h =>
    match tabGet ts h with
    | some (some t) => .ok (t, tabSet ts h none)
    | some none => .error alreadyJoinedMsg
    | none => .error alreadyJoinedMsg
  | x => .error (expectedArgMsg "thr" (typeName x))

/-- `dyon_std::join__thread` (mod.rs lines 1396-1427): join a
background task.  The handle is invalidated first; the task's own
error is rewrapped as an `Error` with no trace; an abnormal
termination yields the fixed `"Thread did not exit successfully"`
message; an invalid handle's diagnostic is likewise wrapped.  The
intrinsic itself always succeeds, pushing a `Result` value. -/
def join__thread (ts : ThreadTab) (s : Stack) : ERes × ThreadTab × Stack :=
  match popOp s with
  | none => (.panic TINVOTS, ts, s)
  | some (thread, s) =>
    match invalidateHandle ts thread with
    | .ok (t, ts) =>
      let v : Variable := match t with
        | .value res => .result (.ok res)
        | .failed err => .result (.error (.mk (.text err) []))
        | .abnormal => .result (.error (.mk (.text "Thread did not exit successfully") []))
      (.ok, ts, s ++ [v])
    | .error err => (.ok, ts, s ++ [.result (.error (.mk (.text err) []))])

/-- Attach a sequence of explanations to a boolean through repeated
`explain_why` calls: each step pushes the explanation on top of the
boolean left by the previous step and runs the intrinsic, stopping at
the first non-`ok` outcome. -/
def attachChain (base : Stack) (b : Variable) (es : List Variable) : ERes × Stack :=
  es.foldl
    (fun acc e =>
      match acc with
      | (ERes.ok, s) => explain_why (s ++ [e])
      | other => other)
    (ERes.ok, base ++ [b])

/-- The round trip of claim C1: attach explanations in order via
`explain_why`, then read the chain back via `why`. -/
def attachThenWhy (base : Stack) (b : Variable) (es : List Variable) : ERes × Stack :=
  match attachChain base b es with
  | (ERes.ok, s) => why s
  | other => other

/-! ## Supporting lemmas -/

theorem popOp_concat (s : Stack) (v : Variable) : popOp (s ++ [v]) = some (v, s) := by
  simp [popOp]

theorem popOp_concat₂ (s : Stack) (a b : Variable) : popOp (s ++ [a, b]) = some (b, s ++ [a]) := by
  rw [show s ++ [a, b] = (s ++ [a]) ++ [b] by simp]
  exact popOp_concat _ _

theorem set_getElem?_eq {α : Type} :
    ∀ (l : List α) (n : Nat) (v : α), l[n]? = some v → l.set n v = l := by
  intro l
  induction l with
  | nil => intro n v h; simp at h
  | cons a t ih =>
    intro n v h
    cases n with
    | zero => simp_all
    | succ m =>
      simp only [List.getElem?_cons_succ] at h
      simp [ih m v h]

theorem explain_why_bool (base : Stack) (tv : Bool) (sec : Option (List Variable))
    (e w : Variable) (h : deepClone base e = some w) :
    explain_why (base ++ [.bool tv sec, e]) =
      (.ok, base ++ [.bool tv (some (sec.getD [] ++ [w]))]) := by
  cases sec <;> simp [explain_why, popOp_concat₂, popOp_concat, resolve, h]

theorem attachChain_some :
    ∀ (es : List Variable) (base : Stack) (tv : Bool) (c es' : List Variable),
      cloneList base es = some es' →
      attachChain base (.bool tv (some c)) es = (.ok, base ++ [.bool tv (some (c ++ es'))]) := by
  intro es
  induction es with
  | nil =>
    intro base tv c es' h
    simp only [cloneList, Option.some.injEq] at h
    subst h
    simp [attachChain]
  | cons e rest ih =>
    intro base tv c es' h
    simp only [cloneList] at h
    cases hd : deepClone base e with
    | none => rw [hd] at h; simp at h
    | some w =>
      cases tl : cloneList base rest with
      | none => rw [hd, tl] at h; simp at h
      | some ws =>
        rw [hd, tl] at h
        simp only [Option.some.injEq] at h
        subst h
        have step : explain_why ((base ++ [Variable.bool tv (some c)]) ++ [e]) =
            (.ok, base ++ [.bool tv (some (c ++ [w]))]) := by
          have := explain_why_bool base tv (some c) e w hd
          simpa using this
        calc attachChain base (.bool tv (some c)) (e :: rest)
            = attachChain base (.bool tv (some (c ++ [w]))) rest := by
              simp only [attachChain, List.foldl_cons]
              rw [step]
          _ = (.ok, base ++ [.bool tv (some ((c ++ [w]) ++ ws))]) := ih base tv (c ++ [w]) ws tl
          _ = (.ok, base ++ [.bool tv (some (c ++ w :: ws))]) := by simp

theorem findExt_append (A B : List ExtFn) (n : String) :
    findExt (A ++ B) n = (findExt A n).or (findExt B n) := by
  simp [findExt, List.find?_append]

theorem findExt_cons (f : ExtFn) (rest : List ExtFn) (n : String) :
    findExt (f :: rest) n = if f.name = n then some f else findExt rest n := by
  by_cases h : f.name = n <;> simp [findExt, List.find?_cons, h]

theorem findExt_mergeExt :
    ∀ (fs L : List ExtFn) (n : String),
      findExt (mergeExt L fs) n = (findExt L n).or (findExt fs n) := by
  intro fs
  induction fs with
  | nil => intro L n; simp [mergeExt, findExt, Option.or_none]
  | cons f rest ih =>
    intro L n
    have unfold1 : mergeExt L (f :: rest) =
        mergeExt (if L.any (fun a => a.name = f.name) then L else L ++ [f]) rest := by
      simp [mergeExt, List.foldl_cons]
    rw [unfold1]
    by_cases hp : L.any (fun a => a.name = f.name) = true
    · rw [if_pos hp, ih, findExt_cons]
      have hsome : (findExt L f.name).isSome = true := by
        rcases List.any_eq_true.mp hp with ⟨a, ha, hname⟩
        exact List.find?_isSome.mpr ⟨a, ha, hname⟩
      by_cases hn : f.name = n
      · subst hn
        rcases Option.isSome_iff_exists.mp hsome with ⟨a, ha⟩
        rw [ha, if_pos rfl]
        simp [Option.or]
      · rw [if_neg hn]
    · have hnone : findExt L f.name = none := by
        rw [← Option.not_isSome_iff_eq_none]
        intro hs
        rcases List.find?_isSome.mp hs with ⟨a, ha, hname⟩
        exact hp (List.any_eq_true.mpr ⟨a, ha, hname⟩)
      have hsingle : findExt [f] n = if f.name = n then some f else none := by
        rw [findExt_cons]
        by_cases hq : f.name = n <;> simp [hq, findExt]
      rw [if_neg hp, ih, findExt_append, hsingle, findExt_cons]
      by_cases hn : f.name = n
      · subst hn
        rw [hnone, if_pos rfl, if_pos rfl, Option.none_or]
        simp [Option.or]
      · rw [if_neg hn, if_neg hn, Option.or_none]

theorem popOp_concat₃ (s : Stack) (a b c : Variable) :
    popOp (s ++ [a, b, c]) = some (c, s ++ [a, b]) := by
  rw [show s ++ [a, b, c] = (s ++ [a, b]) ++ [c] by simp]
  exact popOp_concat _ _

theorem tabGet_tabSet (ts : ThreadTab) (h : Nat) (v : Option TaskEnd) :
    (tabGet ts h).isSome = true → tabGet (tabSet ts h v) h = some v := by
  induction ts with
  | nil => intro hs; simp [tabGet] at hs
  | cons p rest ih =>
    intro hs
    by_cases hq : p.1 = h
    · simp [tabGet, tabSet, List.find?_cons, hq]
    · have hd : (decide (p.1 = h)) = false := by simp [hq]
      simp only [tabGet, tabSet, List.map_cons, List.find?_cons, hd] at hs ⊢
      rw [if_neg hq]
      simp only [List.find?_cons, hd]
      exact ih hs

theorem deepCloneF_refFree :
    ∀ (fuel : Nat) (s : Stack),
      (∀ v w, deepCloneF s fuel v = some w → refFree w = true) ∧
      (∀ l l', deepCloneListF s fuel l = some l' → refFreeList l' = true) ∧
      (∀ o o', deepCloneObjF s fuel o = some o' → refFreeObj o' = true) := by
  intro fuel
  induction fuel with
  | zero =>
    intro s
    refine ⟨?_, ?_, ?_⟩ <;> intro a b hc <;>
      simp [deepCloneF, deepCloneListF, deepCloneObjF] at hc
  | succ n ih =>
    intro s
    obtain ⟨ihv, ihl, iho⟩ := ih s
    refine ⟨?_, ?_, ?_⟩
    · intro v w hw
      cases v with
      | f64 val sec =>
        cases sec with
        | none =>
          simp only [deepCloneF, Option.some.injEq] at hw
          subst hw; simp [refFree]
        | some c =>
          simp only [deepCloneF, Option.map_eq_some'] at hw
          obtain ⟨c', hc, hw⟩ := hw
          subst hw; simp only [refFree]; exact ihl c c' hc
      | bool b sec =>
        cases sec with
        | none =>
          simp only [deepCloneF, Option.some.injEq] at hw
          subst hw; simp [refFree]
        | some c =>
          simp only [deepCloneF, Option.map_eq_some'] at hw
          obtain ⟨c', hc, hw⟩ := hw
          subst hw; simp only [refFree]; exact ihl c c' hc
      | text t =>
        simp only [deepCloneF, Option.some.injEq] at hw
        subst hw; simp [refFree]
      | vec4 a b c d =>
        simp only [deepCloneF, Option.some.injEq] at hw
        subst hw; simp [refFree]
      | mat4 mm =>
        simp only [deepCloneF, Option.some.injEq] at hw
        subst hw; simp [refFree]
      | array es =>
        simp only [deepCloneF, Option.map_eq_some'] at hw
        obtain ⟨es', hes, hw⟩ := hw
        subst hw; simp only [refFree]; exact ihl es es' hes
      | object entries =>
        simp only [deepCloneF, Option.map_eq_some'] at hw
        obtain ⟨o', ho, hw⟩ := hw
        subst hw; simp only [refFree]; exact iho entries o' ho
      | link es =>
        simp only [deepCloneF, Option.map_eq_some'] at hw
        obtain ⟨es', hes, hw⟩ := hw
        subst hw; simp only [refFree]; exact ihl es es' hes
      | ref i =>
        simp only [deepCloneF] at hw
        cases hs : s.get? i with
        | none => rw [hs] at hw; simp at hw
        | some u =>
          rw [hs] at hw
          exact ihv u w hw
      | uncheckedRef i =>
        simp only [deepCloneF] at hw
        exact absurd hw (by simp)
      | rustObject o =>
        simp only [deepCloneF, Option.some.injEq] at hw
        subst hw; simp [refFree]
      | option o =>
        cases o with
        | none =>
          simp only [deepCloneF, Option.some.injEq] at hw
          subst hw; simp [refFree]
        | some u =>
          simp only [deepCloneF, Option.map_eq_some'] at hw
          obtain ⟨u', hu, hw⟩ := hw
          subst hw; simp only [refFree]; exact ihv u u' hu
      | result r =>
        cases r with
        | ok u =>
          simp only [deepCloneF, Option.map_eq_some'] at hw
          obtain ⟨u', hu, hw⟩ := hw
          subst hw; simp only [refFree]; exact ihv u u' hu
        | error e =>
          cases e with
          | mk msg tr =>
            simp only [deepCloneF, Option.map_eq_some'] at hw
            obtain ⟨u', hu, hw⟩ := hw
            subst hw; simp only [refFree]; exact ihv msg u' hu
      | thread hh =>
        simp only [deepCloneF, Option.some.injEq] at hw
        subst hw; simp [refFree]
      | closure c =>
        simp only [deepCloneF, Option.some.injEq] at hw
        subst hw; simp [refFree]
      | inChan hh =>
        simp only [deepCloneF, Option.some.injEq] at hw
        subst hw; simp [refFree]
      | ret =>
        simp only [deepCloneF, Option.some.injEq] at hw
        subst hw; simp [refFree]
    · intro l l' hl
      cases l with
      | nil =>
        simp only [deepCloneListF, Option.some.injEq] at hl
        subst hl; simp [refFreeList]
      | cons v vs =>
        simp only [deepCloneListF] at hl
        cases hv : deepCloneF s n v with
        | none => rw [hv] at hl; simp at hl
        | some w =>
          cases hvs : deepCloneListF s n vs with
          | none => rw [hv, hvs] at hl; simp at hl
          | some ws =>
            rw [hv, hvs] at hl
            simp only [Option.some.injEq] at hl
            subst hl
            simp only [refFreeList, Bool.and_eq_true]
            exact ⟨ihv v w hv, ihl vs ws hvs⟩
    · intro o o' ho
      cases o with
      | nil =>
        simp only [deepCloneObjF, Option.some.injEq] at ho
        subst ho; simp [refFreeObj]
      | cons p ps =>
        cases p with
        | mk k v =>
          simp only [deepCloneObjF] at ho
          cases hv : deepCloneF s n v with
          | none => rw [hv] at ho; simp at ho
          | some w =>
            cases hps : deepCloneObjF s n ps with
            | none => rw [hv, hps] at ho; simp at ho
            | some ws =>
              rw [hv, hps] at ho
              simp only [Option.some.injEq] at ho
              subst ho
              simp only [refFreeObj, Bool.and_eq_true]
              exact ⟨ihv v w hv, iho ps ws hps⟩

theorem deepClone_refFree (s : Stack) (v w : Variable) (h : deepClone s v = some w) :
    refFree w = true :=
  (deepCloneF_refFree (varSize v + varSizeList s + 1) s).1 v w h

theorem cloneArgs_refFree :
    ∀ (s : Stack) (args passed : List Variable),
      cloneArgs s args = some passed → ∀ w ∈ passed, refFree w = true := by
  intro s args
  induction args with
  | nil =>
    intro passed hp w hw
    simp only [cloneArgs, Option.some.injEq] at hp
    subst hp; simp at hw
  | cons a as ih =>
    intro passed hp w hw
    simp only [cloneArgs] at hp
    cases ha : deepClone s (resolve s a) with
    | none => rw [ha] at hp; simp at hp
    | some u =>
      cases has : cloneArgs s as with
      | none => rw [ha, has] at hp; simp at hp
      | some us =>
        rw [ha, has] at hp
        simp only [Option.some.injEq] at hp
        subst hp
        rcases List.mem_cons.mp hw with rfl | hmem
        · exact deepClone_refFree s (resolve s a) w ha
        · exact ih us has w hmem

theorem dispatchCore_events (ltc : LifetimeChk) (exec : ExecFn) (s : Stack)
    (m : ModuleRep) (name : String) (argElems passed : List Variable) (fi : Nat)
    (f : LoadedFn)
    (hfind : m.findFunction name = .loaded fi)
    (hget : m.functions[fi]? = some f)
    (harity : f.args = argElems.length)
    (hltc : ltc f argElems = .ok ())
    (hclone : cloneArgs s argElems = some passed) :
    (dispatchCore ltc exec s m name argElems).2 =
      [.lifetimeCheck name, .execute name passed] := by
  have hget' : m.functions.get? fi = some f := by simpa using hget
  simp only [dispatchCore, hfind, hget', harity, hltc, hclone, ne_eq, not_true_eq_false,
    if_false, Bool.false_eq_true, ite_false]
  cases hexec : exec m name passed <;> simp

theorem add_foldl :
    ∀ (fs : List ExtFn) (m : ModuleRep),
      fs.foldl (fun acc f => acc.add f) m =
        { functions := m.functions, extPrelude := m.extPrelude ++ fs } := by
  intro fs
  induction fs with
  | nil => intro m; simp
  | cons f rest ih =>
    intro m
    rw [List.foldl_cons, ih]
    simp [ModuleRep.add]

theorem register_foldl :
    ∀ (fs : List LoadedFn) (m : ModuleRep),
      fs.foldl (fun acc f => acc.register f) m =
        { functions := m.functions ++ fs, extPrelude := m.extPrelude } := by
  intro fs
  induction fs with
  | nil => intro m; simp
  | cons f rest ih =>
    intro m
    rw [List.foldl_cons, ih]
    simp [ModuleRep.register]

theorem guarded_foldl :
    ∀ (fs : List ExtFn) (m : ModuleRep),
      fs.foldl
        (fun acc f =>
          if acc.extPrelude.any (fun a => a.name = f.name) then acc else acc.add f) m =
        { functions := m.functions, extPrelude := mergeExt m.extPrelude fs } := by
  intro fs
  induction fs with
  | nil => intro m; simp [mergeExt]
  | cons f rest ih =>
    intro m
    rw [List.foldl_cons]
    by_cases hp : m.extPrelude.any (fun a => a.name = f.name) = true
    · rw [if_pos hp, ih]
      have h2 : mergeExt m.extPrelude (f :: rest) = mergeExt m.extPrelude rest := by
        simp only [mergeExt, List.foldl_cons]
        rw [if_pos hp]
      rw [h2]
    · rw [if_neg hp, ih]
      have h2 : mergeExt m.extPrelude (f :: rest) = mergeExt (m.extPrelude ++ [f]) rest := by
        simp only [mergeExt, List.foldl_cons]
        rw [if_neg hp]
      rw [h2]
      simp [ModuleRep.add]

theorem addImport_eq (m imp : ModuleRep) :
    addImport m imp =
      { functions := m.functions ++ imp.functions,
        extPrelude := mergeExt m.extPrelude imp.extPrelude } := by
  unfold addImport
  rw [guarded_foldl, register_foldl]

theorem load_foldl :
    ∀ (imports : List ModuleRep) (m : ModuleRep) (n : String),
      findExt (imports.foldl addImport m).extPrelude n =
        (findExt m.extPrelude n).or
          (findExt ((imports.map (fun i => i.extPrelude)).flatten) n) ∧
      (imports.foldl addImport m).functions =
        m.functions ++ (imports.map (fun i => i.functions)).flatten := by
  intro imports
  induction imports with
  | nil => intro m n; simp [findExt, Option.or_none]
  | cons imp rest ih =>
    intro m n
    rw [List.foldl_cons, addImport_eq]
    constructor
    · rw [(ih _ n).1]
      show (findExt (mergeExt m.extPrelude imp.extPrelude) n).or _ = _
      rw [findExt_mergeExt, Option.or_assoc, ← findExt_append]
      simp
    · rw [(ih _ n).2]
      simp

/-! ## Claim theorems -/

/-- C1, counterexample: attaching the explanations "a" then "b" to a
`true` boolean and reading the chain back returns them newest first
(`["b", "a"]`), not oldest first (`["a", "b"]`) as the claim states:
`explain_why` appends at the end of the chain and `why` reverses it. -/
theorem claim_C1_counterexample :
    attachThenWhy [] (.bool true none) [.text "a", .text "b"] =
      (.ok, [Variable.array [.text "b", .text "a"]]) ∧
    attachThenWhy [] (.bool true none) [.text "a", .text "b"] ≠
      (.ok, [Variable.array [.text "a", .text "b"]]) := by
  refine ⟨rfl, ?_⟩
  intro h
  have h2 : (ERes.ok, ([Variable.array [.text "b", .text "a"]] : Stack)) =
      (ERes.ok, ([Variable.array [.text "a", .text "b"]] : Stack)) := h
  simp at h2

/-- C1, amended: attaching explanations `e1, ..., en` (n ≥ 1) in that
order to a `true` boolean via `explain_why` and reading via `why`
returns an array of their deep clones in *reverse* attachment order —
the newest explanation first. -/
theorem claim_C1_amended (base : Stack) (e : Variable) (rest es' : List Variable)
    (h : cloneList base (e :: rest) = some es') :
    attachThenWhy base (.bool true none) (e :: rest) = (.ok, base ++ [.array es'.reverse]) := by
  simp only [cloneList] at h
  cases hd : deepClone base e with
  | none => rw [hd] at h; simp at h
  | some w =>
    cases tl : cloneList base rest with
    | none => rw [hd, tl] at h; simp at h
    | some ws =>
      rw [hd, tl] at h
      simp only [Option.some.injEq] at h
      subst h
      have step : explain_why ((base ++ [Variable.bool true none]) ++ [e]) =
          (.ok, base ++ [.bool true (some [w])]) := by
        have := explain_why_bool base true none e w hd
        simpa using this
      have chain : attachChain base (.bool true none) (e :: rest) =
          (.ok, base ++ [.bool true (some (w :: ws))]) := by
        calc attachChain base (.bool true none) (e :: rest)
            = attachChain base (.bool true (some [w])) rest := by
              simp only [attachChain, List.foldl_cons]
              rw [step]
          _ = (.ok, base ++ [.bool true (some ([w] ++ ws))]) :=
              attachChain_some rest base true [w] ws tl
          _ = (.ok, base ++ [.bool true (some (w :: ws))]) := by simp
      unfold attachThenWhy
      rw [chain]
      simp [why, popOp_concat, resolve]

/-- C1, witness for the amended theorem: attaching "a" then "b" and
reading yields `["b", "a"]`. -/
theorem claim_C1_amended_witness :
    attachThenWhy [] (.bool true none) [.text "a", .text "b"] =
      (.ok, [Variable.array [.text "b", .text "a"]]) :=
  claim_C1_amended [] (.text "a") [.text "b"] [.text "a", .text "b"] rfl

/-- C4: the external prelude built by module load with imports resolves
every name to the first registration among the base (host) prelude
followed by the imports' preludes in listed order — so the base entry
is never overridden and earlier imports beat later ones — and the
function table is the imports' loaded functions registered in listed
order. -/
theorem claim_C4 (base : List ExtFn) (imports : List ModuleRep) (n : String) :
    findExt (load__source_imports base imports).extPrelude n =
      findExt (base ++ (imports.map (fun i => i.extPrelude)).flatten) n ∧
    (load__source_imports base imports).functions =
      (imports.map (fun i => i.functions)).flatten := by
  unfold load__source_imports
  rw [add_foldl]
  have h := load_foldl imports
    { functions := ({} : ModuleRep).functions,
      extPrelude := ({} : ModuleRep).extPrelude ++ base } n
  constructor
  · rw [h.1, findExt_append, findExt_append]
    simp [findExt, Option.none_or]
  · rw [h.2]
    simp

/-- C6, counterexample: `read-where` on a NaN number *without* a chain
reports the chainless ("perhaps an array is empty") error, not the
`NotANumber` error the claim requires for every NaN. -/
theorem claim_C6_counterexample :
    _where [Variable.f64 .nan none] =
      (.err "This does not make sense, perhaps an array is empty?" (some 0), []) ∧
    ("This does not make sense, perhaps an array is empty?" : String) ≠
      "Expected number, found `NaN`" := by
  exact ⟨rfl, by decide⟩

/-- C6, amended: `read-where` fails with the `NotANumber` error exactly
for a NaN number that carries a chain; a chainless number — NaN or not
— fails with the chainless error. -/
theorem claim_C6_amended (base : Stack) (sec : List Variable) (v : F64Val) :
    _where (base ++ [.f64 .nan (some sec)]) =
      (.err "Expected number, found `NaN`" (some 0), base) ∧
    _where (base ++ [.f64 v none]) =
      (.err "This does not make sense, perhaps an array is empty?" (some 0), base) := by
  constructor <;> simp [_where, popOp_concat, resolve, F64Val.isNaN]

/-- C7, counterexample: attaching an explanation to a `false` boolean
succeeds and yields a `false` boolean carrying the chain, where the
claim requires the operation to fail. -/
theorem claim_C7_counterexample :
    explain_why [Variable.bool false none, Variable.text "e"] =
      (.ok, [Variable.bool false (some [Variable.text "e"])]) := rfl

/-- C7, amended: `explain_why` accepts a boolean of either truth value
and appends to its chain; the misuse of a `false` boolean is reported
only when the chain is read (`why` on `false` fails with the
wrong-value message). -/
theorem claim_C7_amended (base : Stack) (sec : Option (List Variable)) (e w : Variable)
    (h : deepClone base e = some w) :
    explain_why (base ++ [.bool false sec, e]) =
      (.ok, base ++ [.bool false (some (sec.getD [] ++ [w]))]) ∧
    ∀ (base2 : Stack) (sec2 : Option (List Variable)),
      why (base2 ++ [.bool false sec2]) =
        (.err "Must be `true` to have meaning, try add or remove `!`" (some 0), base2) := by
  constructor
  · cases sec <;> simp [explain_why, popOp_concat₂, popOp_concat, resolve, h]
  · intro base2 sec2
    cases sec2 <;> simp [why, popOp_concat, resolve]

/-- C7, witness for the amended theorem at a concrete input. -/
theorem claim_C7_amended_witness :
    explain_why [Variable.bool false none, Variable.text "e"] =
      (.ok, [Variable.bool false (some [Variable.text "e"])]) :=
  (claim_C7_amended [] none (.text "e") (.text "e") rfl).1

/-- C8: joining a background task consumes the handle (its table entry
becomes invalidated); a second join on the same handle yields a
failure `Result` with the `AlreadyJoined` diagnostic; a task that
failed through its own error path yields a failure `Result` carrying
exactly the task's message with an empty trace; an abnormal
termination yields the fixed "Thread did not exit successfully"
message with an empty trace; a task value is rewrapped as a success
`Result`. -/
theorem claim_C8 (ts : ThreadTab) (base : Stack) (h : Nat) :
    (∀ t, tabGet ts h = some (some t) →
      tabGet (join__thread ts (base ++ [.thread h])).2.1 h = some none) ∧
    (tabGet ts h = some none →
      join__thread ts (base ++ [.thread h]) =
        (.ok, ts, base ++ [.result (.error (.mk (.text alreadyJoinedMsg) []))])) ∧
    (∀ m, tabGet ts h = some (some (.failed m)) →
      join__thread ts (base ++ [.thread h]) =
        (.ok, tabSet ts h none, base ++ [.result (.error (.mk (.text m) []))])) ∧
    (tabGet ts h = some (some .abnormal) →
      join__thread ts (base ++ [.thread h]) =
        (.ok, tabSet ts h none,
          base ++ [.result (.error (.mk (.text "Thread did not exit successfully") []))])) ∧
    (∀ v, tabGet ts h = some (some (.value v)) →
      join__thread ts (base ++ [.thread h]) =
        (.ok, tabSet ts h none, base ++ [.result (.ok v)])) := by
  refine ⟨?_, ?_, ?_, ?_, ?_⟩
  · intro t hget
    have hj : join__thread ts (base ++ [.thread h]) =
        (.ok, tabSet ts h none,
          base ++ [match t with
            | .value res => Variable.result (.ok res)
            | .failed err => .result (.error (.mk (.text err) []))
            | .abnormal =>
              .result (.error (.mk (.text "Thread did not exit successfully") []))]) := by
      simp [join__thread, popOp_concat, invalidateHandle, hget]
    rw [hj]
    exact tabGet_tabSet ts h none (by simp [hget])
  · intro hget
    simp [join__thread, popOp_concat, invalidateHandle, hget]
  · intro m hget
    simp [join__thread, popOp_concat, invalidateHandle, hget]
  · intro hget
    simp [join__thread, popOp_concat, invalidateHandle, hget]
  · intro v hget
    simp [join__thread, popOp_concat, invalidateHandle, hget]

/-- C8, witness: a handle whose task failed with "boom" joins to a
failure `Result` with message "boom" and empty trace; the entry is
invalidated, and a second join fails with `AlreadyJoined`; an
abnormally terminated task joins to the fixed message. -/
theorem claim_C8_witness :
    join__thread [(0, some (.failed "boom"))] [.thread 0] =
      (.ok, [(0, none)], [.result (.error (.mk (.text "boom") []))]) ∧
    join__thread [(0, none)] [.thread 0] =
      (.ok, [(0, none)], [.result (.error (.mk (.text alreadyJoinedMsg) []))]) ∧
    join__thread [(0, some .abnormal)] [.thread 0] =
      (.ok, [(0, none)],
        [.result (.error (.mk (.text "Thread did not exit successfully") []))]) :=
  ⟨(claim_C8 [(0, some (.failed "boom"))] [] 0).2.2.1 "boom" rfl,
   (claim_C8 [(0, none)] [] 0).2.1 rfl,
   (claim_C8 [(0, some .abnormal)] [] 0).2.2.2.1 rfl⟩

/-- C9: `explain_where` on a non-number first argument reports the
expected variant as `bool`, not `f64` as the claim (and the convention
of the sibling `_where`) requires — evaluated at the failing input. -/
theorem claim_C9_bug :
    explain_where [Variable.text "x", Variable.text "w"] =
      (.err (expectedArgMsg "bool" "str") (some 0), []) ∧
    expectedArgMsg "bool" "str" ≠ expectedArgMsg "f64" "str" := by
  exact ⟨rfl, by decide⟩

/-- C5: `swap` with an index outside the array's bounds aborts (Rust's
`<[T]>::swap` index panic) instead of returning an error: evaluated at
the failing input `swap(&[_], 0, 1)`, the outcome is a panic and is
neither a failure result nor a success. -/
theorem claim_C5_bug :
    swap [Variable.array [.text "x"], .ref 0, .f64 (.num 0) none, .f64 (.num 1) none] =
      (.panic "index out of bounds: the len is 1 but the index is 1",
        [Variable.array [.text "x"]]) ∧
    (∀ m i, (swap [Variable.array [.text "x"], .ref 0, .f64 (.num 0) none,
      .f64 (.num 1) none]).1 ≠ .err m i) ∧
    (swap [Variable.array [.text "x"], .ref 0, .f64 (.num 0) none,
      .f64 (.num 1) none]).1 ≠ .ok := by
  refine ⟨rfl, ?_, ?_⟩ <;> simp [swap, resolve, popOp, vecSwap, F64Val.toUsize]

/-- C2: on a dispatch that reaches the callee (both `call` and
`call-returning`), the callee is executed exactly once and receives
precisely the resolved-and-deep-cloned argument values (`passed`,
the element-wise resolve + deep clone of the argument array), and
every one of those values is reference-free — it can alias no slot of
the caller's stack — for every lifetime checker and every callee
semantics. -/
theorem claim_C2 (ltc : LifetimeChk) (exec : ExecFn) (base : Stack) (m : ModuleRep)
    (name : String) (argElems passed : List Variable) (fi : Nat) (f : LoadedFn)
    (hfind : m.findFunction name = .loaded fi)
    (hget : m.functions[fi]? = some f)
    (harity : f.args = argElems.length)
    (hltc : ltc f argElems = .ok ())
    (hclone : cloneArgs base argElems = some passed) :
    (_call ltc exec (base ++ [.rustObject (.module m), .text name, .array argElems])).2 =
      [.lifetimeCheck name, .execute name passed] ∧
    (call_ret ltc exec (base ++ [.rustObject (.module m), .text name, .array argElems])).2 =
      [.lifetimeCheck name, .execute name passed] ∧
    (∀ w ∈ passed, refFree w = true) := by
  have hev := dispatchCore_events ltc exec base m name argElems passed fi f
    hfind hget harity hltc hclone
  refine ⟨?_, ?_, cloneArgs_refFree base argElems passed hclone⟩
  · simp only [_call, popOp_concat₃, popOp_concat₂, popOp_concat, resolve]
    rcases hd : dispatchCore ltc exec base m name argElems with ⟨res, evs⟩
    rw [hd] at hev
    cases res with
    | ok r => simpa using hev
    | error e =>
      rcases e with ⟨msg, idx⟩
      simpa using hev
  · simp only [call_ret, popOp_concat₃, popOp_concat₂, popOp_concat, resolve]
    rcases hd : dispatchCore ltc exec base m name argElems with ⟨res, evs⟩
    rw [hd] at hev
    cases res with
    | ok r =>
      cases r with
      | none => simpa using hev
      | some v => simpa using hev
    | error e =>
      rcases e with ⟨msg, idx⟩
      simpa using hev

/-- C2, witness: dispatching `f(x)` where the argument array holds a
stack reference — the callee receives the deep clone of the referenced
array, which is reference-free. -/
theorem claim_C2_witness :
    (_call (fun _ _ => .ok ()) (fun _ _ _ => .ok none)
      ([.array [.text "x"]] ++
        [.rustObject (.module { functions := [{ name := "f", args := 1 }] }),
          .text "f", .array [.ref 0]])).2 =
      [.lifetimeCheck "f", .execute "f" [.array [.text "x"]]] ∧
    refFree (.array [.text "x"]) = true :=
  ⟨(claim_C2 (fun _ _ => .ok ()) (fun _ _ _ => .ok none) [.array [.text "x"]]
      { functions := [{ name := "f", args := 1 }] } "f" [.ref 0] [.array [.text "x"]] 0
      { name := "f", args := 1 } rfl rfl rfl rfl rfl).1,
   (claim_C2 (fun _ _ => .ok ()) (fun _ _ _ => .ok none) [.array [.text "x"]]
      { functions := [{ name := "f", args := 1 }] } "f" [.ref 0] [.array [.text "x"]] 0
      { name := "f", args := 1 } rfl rfl rfl rfl rfl).2.2 (.array [.text "x"])
      (by simp)⟩

/-- C3: dispatch (both `call` and `call-returning`) to an existing
loaded function with a wrong-length argument array fails with the
arity-mismatch diagnostic (recording argument position 2, the
argument array), and nothing else happens: for *every* lifetime
checker and *every* callee semantics the event trace is empty — the
lifetime check is never consulted and the callee's body is never
executed. -/
theorem claim_C3 (ltc : LifetimeChk) (exec : ExecFn) (base : Stack) (m : ModuleRep)
    (name : String) (argElems : List Variable) (fi : Nat) (f : LoadedFn)
    (hfind : m.findFunction name = .loaded fi)
    (hget : m.functions[fi]? = some f)
    (harity : f.args ≠ argElems.length) :
    _call ltc exec (base ++ [.rustObject (.module m), .text name, .array argElems]) =
      ((.err (arityMsg f.args argElems.length) (some 2), base), []) ∧
    call_ret ltc exec (base ++ [.rustObject (.module m), .text name, .array argElems]) =
      ((.err (arityMsg f.args argElems.length) (some 2), base), []) := by
  constructor <;>
    simp [_call, call_ret, popOp_concat, popOp_concat₂, popOp_concat₃, resolve,
      dispatchCore, hfind, hget, harity]

/-- C3, witness: a module whose only function `f` takes two parameters,
dispatched with a one-element argument array. -/
theorem claim_C3_witness :
    _call (fun _ _ => .ok ()) (fun _ _ _ => .ok none)
      [.rustObject (.module { functions := [{ name := "f", args := 2 }] }),
        .text "f", .array [.text "x"]] =
      ((.err (arityMsg 2 1) (some 2), []), []) :=
  (claim_C3 (fun _ _ => .ok ()) (fun _ _ _ => .ok none) []
    { functions := [{ name := "f", args := 2 }] } "f" [.text "x"] 0
    { name := "f", args := 2 } rfl rfl (by decide)).1

/-- C10: `pop` on a reference to an empty array fails with the
"Expected non-empty array" error, pushes nothing and leaves the
referenced slot unchanged; on a non-empty array it removes and
returns exactly the last element. -/
theorem claim_C10 (base : Stack) (ind : Nat) (a : List Variable)
    (h : base[ind]? = some (.array a)) :
    (a = [] → pop (base ++ [.ref ind]) = (.err "Expected non-empty array" (some 0), base)) ∧
    (∀ x as, a = as ++ [x] →
      pop (base ++ [.ref ind]) = (.ok, base.set ind (.array as) ++ [x])) := by
  constructor
  · intro ha
    subst ha
    simp [pop, popOp_concat, h, set_getElem?_eq base ind _ h]
  · intro x as ha
    subst ha
    simp [pop, popOp_concat, h]

/-- C10, witness at concrete inputs for both the empty and the
non-empty case. -/
theorem claim_C10_witness :
    pop [Variable.array [], Variable.ref 0] =
      (.err "Expected non-empty array" (some 0), [Variable.array []]) ∧
    pop [Variable.array [.text "x"], Variable.ref 0] =
      (.ok, [Variable.array [], Variable.text "x"]) :=
  ⟨(claim_C10 [Variable.array []] 0 [] rfl).1 rfl,
   (claim_C10 [Variable.array [.text "x"]] 0 [.text "x"] rfl).2 (.text "x") [] rfl⟩

end Dyon
